import Mathlib

/-!
Shallow embedding of the sales-forecasting application (two entry points:
`app.py`, a Streamlit dashboard, and `sales.py`, a Tkinter GUI).

Modelling conventions:
* Dates are integers counting days; a day `d` with `d % 7 = 6` is a Sunday,
  so the pandas weekly bucket label (`resample("W")`, weeks ending Sunday)
  of a day `d` is the first Sunday on or after `d`.
* `Weekly_Sales` values are exact rationals (`Rat`); the claims under study
  are structural, not about binary floating-point rounding.
* pandas tables are lists of records; `merge(..., how="left")` emits one
  output row per matching right-hand row, or a single row with absent
  (`none`) right-hand fields when there is no match.
* `sort_values` is modelled by `List.insertionSort` with the corresponding
  lexicographic key.
-/

namespace SalesForecast

/-- A row of `train.csv` after date parsing (columns Store, Dept, Date,
Weekly_Sales, IsHoliday). -/
structure SalesRecord where
  store : Int
  dept : Int
  date : Int
  weeklySales : Rat
  isHoliday : Bool
deriving DecidableEq, Repr

/-- A row of `features.csv` after date parsing. -/
structure FeatureRecord where
  store : Int
  date : Int
  temperature : Rat
  fuelPrice : Rat
  cpi : Rat
  unemployment : Rat
  markdown1 : Option Rat
  markdown2 : Option Rat
  markdown3 : Option Rat
  markdown4 : Option Rat
  markdown5 : Option Rat
  isHoliday : Bool
deriving DecidableEq, Repr

/-- A row of `stores.csv`. -/
structure StoreMeta where
  store : Int
  type : String
  size : Int
deriving DecidableEq, Repr

/-- A row of the unified dataset produced by `load_data` in both files:
the sales columns, plus the joined feature columns (absent when the left
join found no match) and the joined store-metadata columns. -/
structure Row where
  sales : SalesRecord
  feat : Option FeatureRecord
  meta : Option StoreMeta
deriving DecidableEq, Repr

/-- Feature rows matching a sales row on the join keys
`["Store", "Date", "IsHoliday"]` (app.py line 29, sales.py line 25). -/
def featMatches (s : SalesRecord) (features : List FeatureRecord) : List FeatureRecord :=
  features.filter (fun f => decide (f.store = s.store ∧ f.date = s.date ∧ f.isHoliday = s.isHoliday))

/-- Store-metadata rows matching a sales row on the join key `"Store"`
(app.py line 30, sales.py line 26). -/
def storeMatches (s : SalesRecord) (stores : List StoreMeta) : List StoreMeta :=
  stores.filter (fun t => decide (t.store = s.store))

/-- `train.merge(features, on=["Store", "Date", "IsHoliday"], how="left")`:
every sales row survives; unmatched feature fields are absent. -/
def mergeFeat (train : List SalesRecord) (features : List FeatureRecord) :
    List (SalesRecord × Option FeatureRecord) :=
  train.flatMap (fun s =>
    match featMatches s features with
    | [] => [(s, none)]
    | ms => ms.map (fun f => (s, some f)))

/-- `data.merge(stores, on="Store", how="left")` applied to the result of
the feature merge. -/
def mergeStores (pairs : List (SalesRecord × Option FeatureRecord)) (stores : List StoreMeta) :
    List Row :=
  pairs.flatMap (fun p =>
    match storeMatches p.1 stores with
    | [] => [⟨p.1, p.2, none⟩]
    | ms => ms.map (fun t => ⟨p.1, p.2, some t⟩))

/-- The comparison used by `data.sort_values(["Store", "Dept", "Date"])`. -/
def rowLe (a b : Row) : Prop :=
  a.sales.store < b.sales.store ∨
    (a.sales.store = b.sales.store ∧ (a.sales.dept < b.sales.dept ∨
      (a.sales.dept = b.sales.dept ∧ a.sales.date ≤ b.sales.date)))

instance : DecidableRel rowLe :=
  fun _ _ => inferInstanceAs (Decidable (_ ∨ _))

instance : IsTotal Row rowLe :=
  ⟨by intro a b; unfold rowLe; omega⟩

instance : IsTrans Row rowLe :=
  ⟨by intro a b c; unfold rowLe; omega⟩

/-- `load_data` (app.py lines 15-33, sales.py lines 11-30): merge the three
tables and sort by (Store, Dept, Date). -/
def load_data (train : List SalesRecord) (stores : List StoreMeta)
    (features : List FeatureRecord) : List Row :=
  List.insertionSort rowLe (mergeStores (mergeFeat train features) stores)

/-- `data[(data["Store"] == store_id) & (data["Dept"] == dept_id)]`
(app.py line 63, sales.py line 71). -/
def filterKey (data : List Row) (storeId deptId : Int) : List Row :=
  data.filter (fun r => decide (r.sales.store = storeId ∧ r.sales.dept = deptId))

/-- The comparison used by `sd.sort_values("Date")` (app.py line 67). -/
def dateLe (a b : Row) : Prop :=
  a.sales.date ≤ b.sales.date

instance : DecidableRel dateLe :=
  fun _ _ => inferInstanceAs (Decidable (_ ≤ _))

/-- `sd.set_index("Date")["Weekly_Sales"]`: the (Date, Weekly_Sales)
series underlying a list of unified rows. -/
def toSeries (rows : List Row) : List (Int × Rat) :=
  rows.map (fun r => (r.sales.date, r.sales.weeklySales))

/-- The pandas `resample("W")` bucket label of day `d`: the first Sunday
(day ≡ 6 mod 7) on or after `d`. -/
def weekEnd (d : Int) : Int :=
  d + (6 - d) % 7

/-- Sum of the series values falling in the weekly bucket labelled `b`. -/
def bucketSum (l : List (Int × Rat)) (b : Int) : Rat :=
  ((l.filter (fun e => decide (weekEnd e.1 = b))).map Prod.snd).sum

/-- Smallest date of a nonempty series (0 for an empty one). -/
def minDateL : List (Int × Rat) → Int
  | [] => 0
  | e :: es => es.foldl (fun a x => min a x.1) e.1

/-- Largest date of a nonempty series (0 for an empty one). -/
def maxDateL : List (Int × Rat) → Int
  | [] => 0
  | e :: es => es.foldl (fun a x => max a x.1) e.1

/-- First weekly bucket label of a series: the week of its earliest date. -/
def loW (l : List (Int × Rat)) : Int :=
  weekEnd (minDateL l)

/-- Last weekly bucket label of a series: the week of its latest date. -/
def hiW (l : List (Int × Rat)) : Int :=
  weekEnd (maxDateL l)

/-- Number of weekly buckets from the first through the last occupied week. -/
def nW (l : List (Int × Rat)) : Nat :=
  ((hiW l - loW l) / 7).toNat + 1

/-- `.resample("W").sum()`: one bucket per week from the week of the
earliest date through the week of the latest date, each holding the sum of
the observations falling in it (`0` for a week with no observations, which
is what pandas `sum()` returns for an empty bucket). -/
def resampleW (l : List (Int × Rat)) : List (Int × Rat) :=
  if l.isEmpty then []
  else
    (List.range (nW l)).map
      (fun (k : Nat) => (loW l + 7 * (k : Int), bucketSum l (loW l + 7 * (k : Int))))

/-- `ts.dropna()` (app.py line 74). The series values are sums of
`Weekly_Sales` numbers, and `resample("W").sum()` yields `0` (not NaN) for
an empty bucket, so no NaN can be present and the call removes nothing; in
this exact-rational model NaN is unrepresentable and `dropna` is the
identity. -/
def dropna (l : List (Int × Rat)) : List (Int × Rat) :=
  l

/-- The weekly series built by `generate_forecast` (app.py lines 67-74):
sort by Date, set Date as the index, resample weekly summing, drop NaNs. -/
def app_weekly (sd : List Row) : List (Int × Rat) :=
  dropna (resampleW (toSeries (List.insertionSort dateLe sd)))

/-- Sum of the values of the series at exactly date `d`. -/
def dateSum (l : List (Int × Rat)) (d : Int) : Rat :=
  ((l.filter (fun e => decide (e.1 = d))).map Prod.snd).sum

/-- `sd.groupby("Date")["Weekly_Sales"].sum().sort_index()`
(sales.py line 77): one entry per distinct date, values summed, sorted
ascending by date. -/
def groupDates (l : List (Int × Rat)) : List (Int × Rat) :=
  (List.insertionSort (· ≤ ·) ((l.map Prod.fst).dedup)).map (fun d => (d, dateSum l d))

/-- The weekly series built by `run_forecast` (sales.py lines 77-80):
group by date summing, sort by date, resample weekly summing. -/
def sales_weekly (sd : List Row) : List (Int × Rat) :=
  resampleW (groupDates (toSeries sd))

/-- Modelled from the spec: the fitted Holt-Winters state (§4.3 of the
specification). The fitter itself is `statsmodels.tsa.holtwinters.
ExponentialSmoothing`, which is outside this repository; the spec gives
its state (level, trend, cyclic seasonal indices, damping factor). -/
structure HWModel where
  level : Rat
  trend : Rat
  seasonals : List Rat
  phi : Rat
deriving DecidableEq, Repr

/-- Modelled from the spec: one Holt-Winters update (§4.3 recurrences,
additive seasonality, multiplicatively damped trend). The seasonal list is
kept as a queue whose head is the index `S_{t-m}` consumed at step `t`. -/
def hwStep (a b g phi : Rat) (st : Rat × Rat × List Rat) (y : Rat) : Rat × Rat × List Rat :=
  let sOld := st.2.2.headD 0
  let lNew := a * (y - sOld) + (1 - a) * (st.1 + phi * st.2.1)
  let tNew := b * (lNew - st.1) + (1 - b) * phi * st.2.1
  (lNew, tNew, st.2.2.tail ++ [g * (y - lNew) + (1 - g) * sOld])

/-- Modelled from the spec: the deterministic initial decomposition (§4.3
initialization; the exact method is an implementation choice, fixed here
as: level = mean of the first cycle, trend = difference of the first two
cycle means divided by the cycle length when two full cycles exist,
seasonal indices = first-cycle deviations from the initial level). -/
def hwInit (m : Nat) (ys : List Rat) : Rat × Rat × List Rat :=
  let c1 := ys.take m
  let lvl := c1.sum / (m : Rat)
  let tr :=
    if 2 * m ≤ ys.length then (((ys.drop m).take m).sum / (m : Rat) - lvl) / (m : Rat)
    else 0
  (lvl, tr, (List.range m).map (fun i => c1.getD i 0 - lvl))

/-- Modelled from the spec: the fixed-mode Holt-Winters fit (§4.3):
caller-supplied smoothing parameters used verbatim, recurrences run over
the whole series, returning the final level, trend and the last `m`
seasonal indices in cyclic order. -/
def hwFit (m : Nat) (a b g phi : Rat) (ys : List Rat) : HWModel :=
  let st := ys.foldl (hwStep a b g phi) (hwInit m ys)
  ⟨st.1, st.2.1, st.2.2, phi⟩

/-- Partial sums of powers of the damping factor, `Σ_{i=1}^{k} φ^i`. -/
def phiSum (phi : Rat) (k : Nat) : Rat :=
  ((List.range k).map (fun i => phi ^ (i + 1))).sum

/-- Modelled from the spec: `model.forecast(h)` (§4.4): for `k = 1..h`,
date = last historical date + 7·k and value
`L_n + T_n·Σ_{i≤k} φ^i + S_{(n+k-1) mod m}`. -/
def hwForecast (model : HWModel) (lastDate : Int) (h : Nat) : List (Int × Rat) :=
  (List.range h).map (fun (k : Nat) =>
    (lastDate + 7 * ((k : Int) + 1),
      model.level + model.trend * phiSum model.phi (k + 1) +
        model.seasonals.getD (k % model.seasonals.length) 0))

/-- Modelled from the spec: the optimized-mode parameter search used by
`.fit()` in app.py is an unspecified deterministic bounded optimizer (§9
open question); it is modelled as a deterministic choice of smoothing
parameters. -/
def optimizedParams (_ys : List Rat) : Rat × Rat × Rat :=
  (1/5, 1/10, 1/10)

/-- Modelled from the spec: app.py's `ExponentialSmoothing(ts, trend="add",
seasonal="add", seasonal_periods=m).fit()` — optimized parameters, no
damping (φ = 1). -/
def hwFitOptimized (m : Nat) (ys : List Rat) : HWModel :=
  hwFit m (optimizedParams ys).1 (optimizedParams ys).2.1 (optimizedParams ys).2.2 1 ys

/-- Modelled from the spec: the damping factor the library settles on when
sales.py enables `damped_trend=True` but supplies no explicit φ; a fixed
deterministic value in (0,1]. -/
def defaultDampingFactor : Rat :=
  49/50

/-- The failure messages `generate_forecast` (app.py) can return in place
of a result: no rows for the key (line 65), or too few weekly points,
carrying the actual count and the `2·seasonal_periods` figure printed as
the requirement (lines 78-81). -/
inductive AppError where
  | noData (storeId deptId : Int)
  | insufficientData (actual required : Nat)
deriving DecidableEq, Repr

/-- The successful payload of `generate_forecast`: the historical weekly
series and the forecast series. -/
structure AppOk where
  ts : List (Int × Rat)
  forecast : List (Int × Rat)
deriving DecidableEq, Repr

/-- Date of the last entry of a series (0 for an empty series). -/
def lastDateOf (ts : List (Int × Rat)) : Int :=
  (ts.getLast?.map Prod.fst).getD 0

/-- `generate_forecast` (app.py lines 57-105): filter to the key, build
the weekly series, validate its length against
`max(2*seasonal_periods, seasonal_periods + 5)`, fit (optimized, additive
trend and seasonality), forecast `future_periods` weeks. -/
def generate_forecast (data : List Row) (storeId deptId : Int) (futurePeriods m : Nat) :
    Except AppError AppOk :=
  let sd := filterKey data storeId deptId
  if sd.isEmpty then .error (.noData storeId deptId)
  else
    let ts := app_weekly sd
    if ts.length < max (2 * m) (m + 5) then .error (.insufficientData ts.length (2 * m))
    else .ok ⟨ts, hwForecast (hwFitOptimized m (ts.map Prod.snd)) (lastDateOf ts) futurePeriods⟩

/-- The failure messages `run_forecast` (sales.py) can show in place of a
result: non-positive weeks entry (line 67), no rows for the key (line 73),
or fewer than 20 weekly points (line 83). -/
inductive SalesError where
  | inputErrorWeeks
  | noData
  | notEnoughData
deriving DecidableEq, Repr

/-- The successful payload of `run_forecast`: the historical weekly series
and the forecast series. -/
structure SalesOk where
  ts : List (Int × Rat)
  forecast : List (Int × Rat)
deriving DecidableEq, Repr

/-- `run_forecast` (sales.py lines 42-117): validate the weeks entry,
filter to the key, build the weekly series, require at least 20 points,
fit in fixed mode (α = β = γ = 0.2, damped trend, seasonal_periods = 52,
optimization disabled), forecast. -/
def run_forecast (data : List Row) (storeId deptId : Int) (futurePeriods : Int) :
    Except SalesError SalesOk :=
  if futurePeriods ≤ 0 then .error .inputErrorWeeks
  else
    let sd := filterKey data storeId deptId
    if sd.isEmpty then .error .noData
    else
      let ts := sales_weekly sd
      if ts.length < 20 then .error .notEnoughData
      else .ok ⟨ts,
        hwForecast (hwFit 52 (1/5) (1/5) (1/5) defaultDampingFactor (ts.map Prod.snd))
          (lastDateOf ts) futurePeriods.toNat⟩

/-- Whether an `Except` result is a success. -/
def okB {e a : Type} : Except e a → Bool
  | .ok _ => true
  | .error _ => false

/-- The success payload of an `Except`, with a default for the error case. -/
def okValue {e a : Type} (dflt : a) : Except e a → a
  | .ok v => v
  | .error _ => dflt

instance exceptDecEq {e a : Type} [DecidableEq e] [DecidableEq a] :
    DecidableEq (Except e a) := fun
  | .ok x, .ok y =>
    match decEq x y with
    | isTrue h => isTrue (by rw [h])
    | isFalse h => isFalse (by intro he; cases he; exact h rfl)
  | .ok _, .error _ => isFalse (by intro he; cases he)
  | .error _, .ok _ => isFalse (by intro he; cases he)
  | .error x, .error y =>
    match decEq x y with
    | isTrue h => isTrue (by rw [h])
    | isFalse h => isFalse (by intro he; cases he; exact h rfl)

/-- Concrete sales table: 103 weekly observations for (Store 1, Dept 1). -/
def trainA : List SalesRecord :=
  (List.range 103).map (fun i => ⟨1, 1, 7 * (i : Int), 0, false⟩)

/-- Concrete sales table: 20 weekly observations for (Store 1, Dept 1). -/
def trainB : List SalesRecord :=
  (List.range 20).map (fun i => ⟨1, 1, 7 * (i : Int), 0, false⟩)

/-- Concrete sales table: three observations for (Store 1, Dept 1), two of
them in the same calendar week and one two weeks later. -/
def trainC : List SalesRecord :=
  [⟨1, 1, 0, 5, false⟩, ⟨1, 1, 3, 7, false⟩, ⟨1, 1, 14, 2, false⟩]

/-- Concrete feature table with a single row matching Store 1 on day 0. -/
def featsE : List FeatureRecord :=
  [⟨1, 0, 0, 0, 0, 0, none, none, none, none, none, false⟩]

/-- Concrete store-metadata table for Store 1. -/
def storesE : List StoreMeta :=
  [⟨1, "A", 10⟩]

/-- Concrete sales table with two stores, listed out of key order. -/
def trainE : List SalesRecord :=
  [⟨2, 1, 0, 0, false⟩, ⟨1, 1, 0, 0, false⟩]

theorem weekEnd_ge (d : Int) : d ≤ weekEnd d := by
  unfold weekEnd; omega

theorem weekEnd_lt (d : Int) : weekEnd d < d + 7 := by
  unfold weekEnd; omega

theorem weekEnd_emod (d : Int) : weekEnd d % 7 = 6 := by
  unfold weekEnd; omega

theorem weekEnd_mono {a b : Int} (h : a ≤ b) : weekEnd a ≤ weekEnd b := by
  unfold weekEnd; omega

theorem weekEnd_weekEnd (d : Int) : weekEnd (weekEnd d) = weekEnd d := by
  unfold weekEnd; omega

theorem foldlMin_le_init (es : List (Int × Rat)) (d : Int) :
    es.foldl (fun a x => min a x.1) d ≤ d := by
  induction es generalizing d with
  | nil => exact le_refl d
  | cons e es ih =>
    simpa using le_trans (ih (min d e.1)) (min_le_left d e.1)

theorem foldlMin_le_mem {es : List (Int × Rat)} {x : Int × Rat} (hx : x ∈ es) (d : Int) :
    es.foldl (fun a x => min a x.1) d ≤ x.1 := by
  induction es generalizing d with
  | nil => cases hx
  | cons e es ih =>
    rcases List.mem_cons.mp hx with h | h
    · subst h
      simpa using le_trans (foldlMin_le_init es (min d x.1)) (min_le_right d x.1)
    · simpa using ih h (min d e.1)

theorem foldlMin_mem (es : List (Int × Rat)) (d : Int) :
    es.foldl (fun a x => min a x.1) d = d ∨ ∃ x ∈ es, es.foldl (fun a x => min a x.1) d = x.1 := by
  induction es generalizing d with
  | nil => exact Or.inl rfl
  | cons e es ih =>
    simp only [List.foldl_cons]
    rcases ih (min d e.1) with h | ⟨x, hx, hh⟩
    · rcases le_total d e.1 with hle | hle
      · exact Or.inl (h.trans (min_eq_left hle))
      · exact Or.inr ⟨e, List.mem_cons_self e es, h.trans (min_eq_right hle)⟩
    · exact Or.inr ⟨x, List.mem_cons_of_mem e hx, hh⟩

theorem foldlMax_init_le (es : List (Int × Rat)) (d : Int) :
    d ≤ es.foldl (fun a x => max a x.1) d := by
  induction es generalizing d with
  | nil => exact le_refl d
  | cons e es ih =>
    simpa using le_trans (le_max_left d e.1) (ih (max d e.1))

theorem foldlMax_mem_le {es : List (Int × Rat)} {x : Int × Rat} (hx : x ∈ es) (d : Int) :
    x.1 ≤ es.foldl (fun a x => max a x.1) d := by
  induction es generalizing d with
  | nil => cases hx
  | cons e es ih =>
    rcases List.mem_cons.mp hx with h | h
    · subst h
      simpa using le_trans (le_max_right d x.1) (foldlMax_init_le es (max d x.1))
    · simpa using ih h (max d e.1)

theorem foldlMax_mem (es : List (Int × Rat)) (d : Int) :
    es.foldl (fun a x => max a x.1) d = d ∨ ∃ x ∈ es, es.foldl (fun a x => max a x.1) d = x.1 := by
  induction es generalizing d with
  | nil => exact Or.inl rfl
  | cons e es ih =>
    simp only [List.foldl_cons]
    rcases ih (max d e.1) with h | ⟨x, hx, hh⟩
    · rcases le_total d e.1 with hle | hle
      · exact Or.inr ⟨e, List.mem_cons_self e es, h.trans (max_eq_right hle)⟩
      · exact Or.inl (h.trans (max_eq_left hle))
    · exact Or.inr ⟨x, List.mem_cons_of_mem e hx, hh⟩

theorem minDateL_mem {l : List (Int × Rat)} (h : l ≠ []) : ∃ x ∈ l, minDateL l = x.1 := by
  match l with
  | e :: es =>
    rcases foldlMin_mem es e.1 with hh | ⟨x, hx, hh⟩
    · exact ⟨e, List.mem_cons_self e es, hh⟩
    · exact ⟨x, List.mem_cons_of_mem e hx, hh⟩

theorem minDateL_le {l : List (Int × Rat)} {x : Int × Rat} (hx : x ∈ l) : minDateL l ≤ x.1 := by
  match l with
  | e :: es =>
    rcases List.mem_cons.mp hx with h | h
    · subst h; exact foldlMin_le_init es x.1
    · exact foldlMin_le_mem h e.1

theorem maxDateL_mem {l : List (Int × Rat)} (h : l ≠ []) : ∃ x ∈ l, maxDateL l = x.1 := by
  match l with
  | e :: es =>
    rcases foldlMax_mem es e.1 with hh | ⟨x, hx, hh⟩
    · exact ⟨e, List.mem_cons_self e es, hh⟩
    · exact ⟨x, List.mem_cons_of_mem e hx, hh⟩

theorem maxDateL_le {l : List (Int × Rat)} {x : Int × Rat} (hx : x ∈ l) : x.1 ≤ maxDateL l := by
  match l with
  | e :: es =>
    rcases List.mem_cons.mp hx with h | h
    · subst h; exact foldlMax_init_le es x.1
    · exact foldlMax_mem_le h e.1

theorem minDateL_congr {l l' : List (Int × Rat)} (h : l ≠ []) (h' : l' ≠ [])
    (hmem : ∀ d : Int, (∃ x ∈ l, x.1 = d) ↔ (∃ x ∈ l', x.1 = d)) :
    minDateL l = minDateL l' := by
  obtain ⟨x, hx, hhx⟩ := minDateL_mem h
  obtain ⟨y, hy, hhy⟩ := minDateL_mem h'
  obtain ⟨y', hy', hyx⟩ := (hmem x.1).mp ⟨x, hx, rfl⟩
  obtain ⟨x', hx', hxy⟩ := (hmem y.1).mpr ⟨y, hy, rfl⟩
  have h1 : minDateL l' ≤ minDateL l := hhx ▸ hyx ▸ minDateL_le hy'
  have h2 : minDateL l ≤ minDateL l' := hhy ▸ hxy ▸ minDateL_le hx'
  exact le_antisymm h2 h1

theorem maxDateL_congr {l l' : List (Int × Rat)} (h : l ≠ []) (h' : l' ≠ [])
    (hmem : ∀ d : Int, (∃ x ∈ l, x.1 = d) ↔ (∃ x ∈ l', x.1 = d)) :
    maxDateL l = maxDateL l' := by
  obtain ⟨x, hx, hhx⟩ := maxDateL_mem h
  obtain ⟨y, hy, hhy⟩ := maxDateL_mem h'
  obtain ⟨y', hy', hyx⟩ := (hmem x.1).mp ⟨x, hx, rfl⟩
  obtain ⟨x', hx', hxy⟩ := (hmem y.1).mpr ⟨y, hy, rfl⟩
  have h1 : maxDateL l ≤ maxDateL l' := hhx ▸ hyx ▸ maxDateL_le hy'
  have h2 : maxDateL l' ≤ maxDateL l := hhy ▸ hxy ▸ maxDateL_le hx'
  exact le_antisymm h1 h2

theorem minDateL_le_maxDateL {l : List (Int × Rat)} (h : l ≠ []) : minDateL l ≤ maxDateL l := by
  obtain ⟨x, hx, hhx⟩ := minDateL_mem h
  rw [hhx]
  exact maxDateL_le hx

theorem resampleW_eq {l : List (Int × Rat)} (h : l ≠ []) :
    resampleW l = (List.range (nW l)).map
      (fun (k : Nat) => (loW l + 7 * (k : Int), bucketSum l (loW l + 7 * (k : Int)))) := by
  unfold resampleW
  rw [if_neg]
  simp [List.isEmpty_iff, h]

theorem length_resampleW {l : List (Int × Rat)} (h : l ≠ []) :
    (resampleW l).length = nW l := by
  rw [resampleW_eq h, List.length_map, List.length_range]

theorem loW_add_nW {l : List (Int × Rat)} (h : l ≠ []) :
    loW l + 7 * ((nW l : Int) - 1) = hiW l := by
  have h1 : minDateL l ≤ maxDateL l := minDateL_le_maxDateL h
  simp only [loW, hiW, nW, weekEnd] at *
  omega

theorem resampleW_getElem {l : List (Int × Rat)} (h : l ≠ []) {i : Nat} (hi : i < nW l) :
    (resampleW l)[i]? = some (loW l + 7 * (i : Int), bucketSum l (loW l + 7 * (i : Int))) := by
  rw [resampleW_eq h, List.getElem?_map, List.getElem?_range hi]
  rfl

theorem resampleW_head {l : List (Int × Rat)} (h : l ≠ []) :
    (resampleW l).head? = some (loW l, bucketSum l (loW l)) := by
  have h0 : 0 < nW l := Nat.succ_pos _
  rw [List.head?_eq_getElem?, resampleW_getElem h h0]
  norm_num

theorem resampleW_getLast {l : List (Int × Rat)} (h : l ≠ []) :
    (resampleW l).getLast? = some (hiW l, bucketSum l (hiW l)) := by
  rw [resampleW_eq h]
  have hn : nW l = ((hiW l - loW l) / 7).toNat + 1 := rfl
  rw [hn, List.range_succ, List.map_append, List.map_cons, List.map_nil,
    List.getLast?_concat]
  have hx : loW l + 7 * ((((hiW l - loW l) / 7).toNat : Int)) = hiW l := by
    have := loW_add_nW h
    rw [hn] at this
    push_cast at this
    omega
  rw [hx]

theorem bucketSum_perm {l l' : List (Int × Rat)} (hp : l.Perm l') (b : Int) :
    bucketSum l b = bucketSum l' b :=
  ((hp.filter _).map _).sum_eq

theorem datesMem_perm {l l' : List (Int × Rat)} (hp : l.Perm l') :
    ∀ d : Int, (∃ x ∈ l, x.1 = d) ↔ (∃ x ∈ l', x.1 = d) := by
  intro d
  constructor
  · rintro ⟨x, hx, rfl⟩; exact ⟨x, hp.subset hx, rfl⟩
  · rintro ⟨x, hx, rfl⟩; exact ⟨x, hp.symm.subset hx, rfl⟩

theorem resampleW_perm {l l' : List (Int × Rat)} (hp : l.Perm l') :
    resampleW l = resampleW l' := by
  rcases eq_or_ne l [] with rfl | h
  · rw [hp.symm.eq_nil]
  · have h' : l' ≠ [] := by
      intro e
      exact h (by rw [e] at hp; exact hp.eq_nil)
    have hmin : minDateL l = minDateL l' := minDateL_congr h h' (datesMem_perm hp)
    have hmax : maxDateL l = maxDateL l' := maxDateL_congr h h' (datesMem_perm hp)
    have hlo : loW l = loW l' := by rw [loW, loW, hmin]
    have hhi : hiW l = hiW l' := by rw [hiW, hiW, hmax]
    have hnw : nW l = nW l' := by rw [nW, nW, hlo, hhi]
    rw [resampleW_eq h, resampleW_eq h', hlo, hnw]
    exact List.map_congr_left (fun k _ => by rw [bucketSum_perm hp])

theorem dates_groupDates (l : List (Int × Rat)) (d : Int) :
    (∃ x ∈ groupDates l, x.1 = d) ↔ (∃ e ∈ l, e.1 = d) := by
  simp only [groupDates, List.mem_map, List.mem_insertionSort, List.mem_dedup]
  constructor
  · rintro ⟨x, ⟨d', ⟨e, he, rfl⟩, rfl⟩, rfl⟩
    exact ⟨e, he, rfl⟩
  · rintro ⟨e, he, rfl⟩
    exact ⟨(e.1, dateSum l e.1), ⟨e.1, ⟨e, he, rfl⟩, rfl⟩, rfl⟩

theorem groupDates_ne_nil {l : List (Int × Rat)} (h : l ≠ []) : groupDates l ≠ [] := by
  obtain ⟨e, he⟩ := List.exists_mem_of_ne_nil l h
  intro hg
  obtain ⟨x, hx, _⟩ := (dates_groupDates l e.1).mpr ⟨e, he, rfl⟩
  rw [hg] at hx
  cases hx

theorem sum_filter_split (l : List (Int × Rat)) (p r : (Int × Rat) → Bool) :
    ((l.filter p).map Prod.snd).sum =
      (((l.filter r).filter p).map Prod.snd).sum +
        (((l.filter (fun e => !r e)).filter p).map Prod.snd).sum := by
  induction l with
  | nil => simp
  | cons e es ih =>
    by_cases hr : r e <;> by_cases hp : p e <;>
      simp [List.filter_cons, hr, hp, ih] <;> ring

theorem dateSum_filter_ne {l : List (Int × Rat)} {d d' : Int} (h : d' ≠ d) :
    dateSum (l.filter (fun e => !decide (e.1 = d))) d' = dateSum l d' := by
  unfold dateSum
  rw [List.filter_filter]
  have hf : List.filter (fun a => decide (a.1 = d') && !decide (a.1 = d)) l
      = List.filter (fun e => decide (e.1 = d')) l := by
    apply List.filter_congr
    intro e _
    by_cases hd : e.1 = d'
    · simp [hd, h]
    · simp [hd]
  rw [hf]

theorem sum_over_dates (q : Int → Bool) :
    ∀ (D : List Int) (l : List (Int × Rat)), D.Nodup → (∀ e ∈ l, e.1 ∈ D) →
      ((D.filter q).map (fun d => dateSum l d)).sum =
        ((l.filter (fun e => q e.1)).map Prod.snd).sum := by
  intro D
  induction D with
  | nil =>
    intro l _ hcov
    match l with
    | [] => simp
    | e :: es => exact absurd (hcov e (List.mem_cons_self e es)) (List.not_mem_nil e.1)
  | cons d ds ih =>
    intro l hnd hcov
    have hdn : d ∉ ds := (List.nodup_cons.mp hnd).1
    have hnd2 : ds.Nodup := (List.nodup_cons.mp hnd).2
    have hcov2 : ∀ e ∈ l.filter (fun e => !decide (e.1 = d)), e.1 ∈ ds := by
      intro e he
      obtain ⟨hel, hne⟩ := List.mem_filter.mp he
      have hne2 : e.1 ≠ d := by simpa using hne
      rcases List.mem_cons.mp (hcov e hel) with h | h
      · exact absurd h hne2
      · exact h
    have hcongr : ((ds.filter q).map (fun x => dateSum l x)).sum
        = ((ds.filter q).map (fun x => dateSum (l.filter (fun e => !decide (e.1 = d))) x)).sum := by
      apply congrArg
      apply List.map_congr_left
      intro d2 hd2
      have hne : d2 ≠ d := by
        intro e
        subst e
        exact hdn (List.mem_of_mem_filter hd2)
      rw [dateSum_filter_ne hne]
    rw [List.filter_cons]
    by_cases hq : q d
    · rw [if_pos hq, List.map_cons, List.sum_cons, hcongr,
        ih _ hnd2 hcov2,
        sum_filter_split l (fun e => q e.1) (fun e => decide (e.1 = d))]
      have h1 : ((l.filter (fun e => decide (e.1 = d))).filter (fun e => q e.1))
          = l.filter (fun e => decide (e.1 = d)) := by
        apply List.filter_eq_self.mpr
        intro e he
        have he2 : e.1 = d := by simpa using (List.mem_filter.mp he).2
        rw [he2]
        exact hq
      rw [h1]
      rfl
    · rw [if_neg (by simpa using hq), hcongr, ih _ hnd2 hcov2,
        sum_filter_split l (fun e => q e.1) (fun e => decide (e.1 = d))]
      have h1 : ((l.filter (fun e => decide (e.1 = d))).filter (fun e => q e.1)) = [] := by
        apply List.filter_eq_nil_iff.mpr
        intro e he
        have he2 : e.1 = d := by simpa using (List.mem_filter.mp he).2
        rw [he2]
        simpa using hq
      rw [h1]
      simp

theorem bucketSum_groupDates (l : List (Int × Rat)) (b : Int) :
    bucketSum (groupDates l) b = bucketSum l b := by
  unfold bucketSum groupDates
  rw [List.filter_map, List.map_map]
  have hnd : (List.insertionSort (· ≤ ·) ((l.map Prod.fst).dedup)).Nodup :=
    ((List.perm_insertionSort _ _).nodup_iff).mpr (List.nodup_dedup _)
  have hcov : ∀ e ∈ l, e.1 ∈ List.insertionSort (· ≤ ·) ((l.map Prod.fst).dedup) := by
    intro e he
    exact (List.mem_insertionSort _).mpr (List.mem_dedup.mpr (List.mem_map.mpr ⟨e, he, rfl⟩))
  simpa [Function.comp_def] using
    sum_over_dates (fun d => decide (weekEnd d = b)) _ l hnd hcov

theorem resampleW_groupDates (l : List (Int × Rat)) :
    resampleW (groupDates l) = resampleW l := by
  rcases eq_or_ne l [] with rfl | h
  · rfl
  · have hg : groupDates l ≠ [] := groupDates_ne_nil h
    have hmin : minDateL (groupDates l) = minDateL l :=
      minDateL_congr hg h (dates_groupDates l)
    have hmax : maxDateL (groupDates l) = maxDateL l :=
      maxDateL_congr hg h (dates_groupDates l)
    have hlo : loW (groupDates l) = loW l := by rw [loW, loW, hmin]
    have hnw : nW (groupDates l) = nW l := by
      rw [nW, nW, hlo, hiW, hiW, hmax]
    rw [resampleW_eq hg, resampleW_eq h, hlo, hnw]
    exact List.map_congr_left (fun k _ => by rw [bucketSum_groupDates])

theorem sales_weekly_eq_app_weekly (sd : List Row) : sales_weekly sd = app_weekly sd := by
  unfold sales_weekly app_weekly dropna
  have h1 : resampleW (toSeries (List.insertionSort dateLe sd)) = resampleW (toSeries sd) :=
    resampleW_perm ((List.perm_insertionSort dateLe sd).map _)
  rw [h1]
  exact resampleW_groupDates (toSeries sd)

theorem mergeFeat_cons (s : SalesRecord) (rest : List SalesRecord)
    (features : List FeatureRecord) :
    mergeFeat (s :: rest) features =
      (match featMatches s features with
        | [] => [(s, none)]
        | ms => ms.map (fun f => (s, some f))) ++ mergeFeat rest features := by
  unfold mergeFeat
  rw [List.flatMap_cons]

theorem map_fst_mergeFeat {train : List SalesRecord} {features : List FeatureRecord}
    (h : ∀ s ∈ train, (featMatches s features).length ≤ 1) :
    (mergeFeat train features).map Prod.fst = train := by
  induction train with
  | nil => rfl
  | cons s rest ih =>
    have hs := h s (List.mem_cons_self s rest)
    have hrest : ∀ t ∈ rest, (featMatches t features).length ≤ 1 :=
      fun t ht => h t (List.mem_cons_of_mem s ht)
    rw [mergeFeat_cons, List.map_append, ih hrest]
    cases hm : featMatches s features with
    | nil => rfl
    | cons f fs =>
      cases fs with
      | nil => rfl
      | cons f2 fs2 =>
        rw [hm] at hs
        simp at hs

theorem mergeStores_cons (p : SalesRecord × Option FeatureRecord)
    (rest : List (SalesRecord × Option FeatureRecord)) (stores : List StoreMeta) :
    mergeStores (p :: rest) stores =
      (match storeMatches p.1 stores with
        | [] => [⟨p.1, p.2, none⟩]
        | ms => ms.map (fun t => ⟨p.1, p.2, some t⟩)) ++ mergeStores rest stores := by
  unfold mergeStores
  rw [List.flatMap_cons]

theorem map_sf_mergeStores {pairs : List (SalesRecord × Option FeatureRecord)}
    {stores : List StoreMeta}
    (h : ∀ p ∈ pairs, (storeMatches p.1 stores).length ≤ 1) :
    (mergeStores pairs stores).map (fun r => (r.sales, r.feat)) = pairs := by
  induction pairs with
  | nil => rfl
  | cons p rest ih =>
    have hp := h p (List.mem_cons_self p rest)
    have hrest : ∀ q ∈ rest, (storeMatches q.1 stores).length ≤ 1 :=
      fun q hq => h q (List.mem_cons_of_mem p hq)
    rw [mergeStores_cons, List.map_append, ih hrest]
    cases hm : storeMatches p.1 stores with
    | nil => rfl
    | cons t ts =>
      cases ts with
      | nil => rfl
      | cons t2 ts2 =>
        rw [hm] at hp
        simp at hp

theorem map_sales_joined {train : List SalesRecord} {stores : List StoreMeta}
    {features : List FeatureRecord}
    (hf : ∀ s ∈ train, (featMatches s features).length ≤ 1)
    (hs : ∀ s ∈ train, (storeMatches s stores).length ≤ 1) :
    (mergeStores (mergeFeat train features) stores).map Row.sales = train := by
  have h1 : (mergeFeat train features).map Prod.fst = train := map_fst_mergeFeat hf
  have h2 : ∀ p ∈ mergeFeat train features, (storeMatches p.1 stores).length ≤ 1 := by
    intro p hp
    have hmem : p.1 ∈ train := by
      rw [← h1]
      exact List.mem_map_of_mem _ hp
    exact hs p.1 hmem
  have h3 := map_sf_mergeStores h2
  have h4 : (mergeStores (mergeFeat train features) stores).map Row.sales
      = ((mergeStores (mergeFeat train features) stores).map (fun r => (r.sales, r.feat))).map
          Prod.fst := by
    rw [List.map_map]
    rfl
  rw [h4, h3, h1]

theorem sales_load_data_perm {train : List SalesRecord} {stores : List StoreMeta}
    {features : List FeatureRecord}
    (hf : ∀ s ∈ train, (featMatches s features).length ≤ 1)
    (hs : ∀ s ∈ train, (storeMatches s stores).length ≤ 1) :
    ((load_data train stores features).map Row.sales).Perm train := by
  have hp : (load_data train stores features).Perm
      (mergeStores (mergeFeat train features) stores) :=
    List.perm_insertionSort _ _
  have h2 := hp.map Row.sales
  rw [map_sales_joined hf hs] at h2
  exact h2

theorem toSeries_eq (rows : List Row) :
    toSeries rows = (rows.map Row.sales).map (fun s => (s.date, s.weeklySales)) := by
  rw [List.map_map]
  rfl

theorem filterKey_map_sales (data : List Row) (storeId deptId : Int) :
    (filterKey data storeId deptId).map Row.sales
      = (data.map Row.sales).filter (fun s => decide (s.store = storeId ∧ s.dept = deptId)) :=
  (@List.filter_map Row SalesRecord
    (fun s => decide (s.store = storeId ∧ s.dept = deptId)) Row.sales data).symm

theorem appSeries_eq_trainSeries {train : List SalesRecord} {stores : List StoreMeta}
    {features : List FeatureRecord}
    (hf : ∀ s ∈ train, (featMatches s features).length ≤ 1)
    (hs : ∀ s ∈ train, (storeMatches s stores).length ≤ 1) (storeId deptId : Int) :
    app_weekly (filterKey (load_data train stores features) storeId deptId)
      = resampleW ((train.filter (fun s => decide (s.store = storeId ∧ s.dept = deptId))).map
          (fun s => (s.date, s.weeklySales))) := by
  unfold app_weekly dropna
  have h1 : resampleW (toSeries (List.insertionSort dateLe
        (filterKey (load_data train stores features) storeId deptId)))
      = resampleW (toSeries (filterKey (load_data train stores features) storeId deptId)) :=
    resampleW_perm ((List.perm_insertionSort dateLe _).map _)
  rw [h1, toSeries_eq, filterKey_map_sales]
  exact resampleW_perm
    (((sales_load_data_perm hf hs).filter _).map _)

theorem filter_map_proj (train : List SalesRecord) (P : SalesRecord → Bool) (b : Int) :
    (((train.filter P).map (fun s => (s.date, s.weeklySales))).filter
        (fun e => decide (weekEnd e.1 = b))).map Prod.snd
      = (train.filter (fun s => (P s && decide (weekEnd s.date = b) : Bool))).map
          SalesRecord.weeklySales := by
  induction train with
  | nil => rfl
  | cons s rest ih =>
    by_cases hP : P s <;> by_cases hw : weekEnd s.date = b <;>
      simp [List.filter_cons, hP, hw, ih]

theorem bucketSum_trainSeries (train : List SalesRecord) (storeId deptId b : Int) :
    bucketSum ((train.filter (fun s => decide (s.store = storeId ∧ s.dept = deptId))).map
        (fun s => (s.date, s.weeklySales))) b
      = ((train.filter (fun s =>
            decide (s.store = storeId ∧ s.dept = deptId ∧ weekEnd s.date = b))).map
          SalesRecord.weeklySales).sum := by
  unfold bucketSum
  rw [filter_map_proj]
  have hfl : train.filter (fun s =>
        (decide (s.store = storeId ∧ s.dept = deptId) && decide (weekEnd s.date = b) : Bool))
      = train.filter (fun s =>
          decide (s.store = storeId ∧ s.dept = deptId ∧ weekEnd s.date = b)) := by
    apply List.filter_congr
    intro s _
    by_cases h1 : s.store = storeId <;> by_cases h2 : s.dept = deptId <;>
      by_cases h3 : weekEnd s.date = b <;> simp [h1, h2, h3]
  rw [hfl]

theorem resampleW_mem_val {l : List (Int × Rat)} {p : Int × Rat} (hp : p ∈ resampleW l) :
    p.2 = bucketSum l p.1 := by
  rcases eq_or_ne l [] with rfl | h
  · cases hp
  · rw [resampleW_eq h] at hp
    obtain ⟨k, _, rfl⟩ := List.mem_map.mp hp
    rfl

theorem resampleW_gaps {l : List (Int × Rat)} (i : Nat)
    (hi : i + 1 < (resampleW l).length) :
    ((resampleW l)[i + 1]?).map Prod.fst = ((resampleW l)[i]?).map (fun p => p.1 + 7) := by
  have h : l ≠ [] := by
    intro e
    subst e
    simp [resampleW] at hi
  rw [length_resampleW h] at hi
  rw [resampleW_getElem h hi, resampleW_getElem h (Nat.lt_of_succ_lt hi)]
  simp only [Option.map_some']
  congr 1
  push_cast
  ring

theorem load_data_sorted (train : List SalesRecord) (stores : List StoreMeta)
    (features : List FeatureRecord) :
    List.Sorted rowLe (load_data train stores features) :=
  List.sorted_insertionSort rowLe _

theorem mem_mergeFeat_of_mem {train : List SalesRecord} (features : List FeatureRecord)
    {s : SalesRecord} (hs : s ∈ train) :
    ∃ p ∈ mergeFeat train features, p.1 = s := by
  cases hm : featMatches s features with
  | nil =>
    refine ⟨(s, none), List.mem_flatMap.mpr ⟨s, hs, ?_⟩, rfl⟩
    rw [hm]
    exact List.mem_singleton.mpr rfl
  | cons f fs =>
    refine ⟨(s, some f), List.mem_flatMap.mpr ⟨s, hs, ?_⟩, rfl⟩
    rw [hm]
    exact List.mem_map_of_mem _ (List.mem_cons_self f fs)

theorem mem_mergeStores_of_mem {pairs : List (SalesRecord × Option FeatureRecord)}
    (stores : List StoreMeta) {p : SalesRecord × Option FeatureRecord} (hp : p ∈ pairs) :
    ∃ r ∈ mergeStores pairs stores, r.sales = p.1 ∧ r.feat = p.2 := by
  cases hm : storeMatches p.1 stores with
  | nil =>
    refine ⟨⟨p.1, p.2, none⟩, List.mem_flatMap.mpr ⟨p, hp, ?_⟩, rfl, rfl⟩
    rw [hm]
    exact List.mem_singleton.mpr rfl
  | cons t ts =>
    refine ⟨⟨p.1, p.2, some t⟩, List.mem_flatMap.mpr ⟨p, hp, ?_⟩, rfl, rfl⟩
    rw [hm]
    exact List.mem_map_of_mem _ (List.mem_cons_self t ts)

theorem mem_load_data_of_mem {train : List SalesRecord} {stores : List StoreMeta}
    {features : List FeatureRecord} {s : SalesRecord} (hs : s ∈ train) :
    ∃ r ∈ load_data train stores features, r.sales = s := by
  obtain ⟨p, hp, hp1⟩ := mem_mergeFeat_of_mem features hs
  obtain ⟨r, hr, hr1, _⟩ := mem_mergeStores_of_mem stores hp
  exact ⟨r, (List.mem_insertionSort _).mpr hr, hr1.trans hp1⟩

theorem mergeFeat_shape {train : List SalesRecord} {features : List FeatureRecord}
    {p : SalesRecord × Option FeatureRecord} (hp : p ∈ mergeFeat train features) :
    p.1 ∈ train ∧ (p.2 = none ↔ featMatches p.1 features = []) ∧
      (∀ f, p.2 = some f → f ∈ featMatches p.1 features) := by
  obtain ⟨s, hsm, hbucket⟩ := List.mem_flatMap.mp hp
  cases hm : featMatches s features with
  | nil =>
    rw [hm] at hbucket
    have hpe : p = (s, none) := List.mem_singleton.mp hbucket
    subst hpe
    refine ⟨hsm, ?_, ?_⟩
    · simp [hm]
    · intro f hf
      cases hf
  | cons f fs =>
    rw [hm] at hbucket
    obtain ⟨f2, hf2, hpe⟩ := List.mem_map.mp hbucket
    subst hpe
    refine ⟨hsm, ?_, ?_⟩
    · simp [hm]
    · intro f3 hf3
      rw [hm]
      cases hf3
      exact hf2

theorem mergeStores_shape {pairs : List (SalesRecord × Option FeatureRecord)}
    {stores : List StoreMeta} {r : Row} (hr : r ∈ mergeStores pairs stores) :
    (r.sales, r.feat) ∈ pairs ∧ (r.meta = none ↔ storeMatches r.sales stores = []) ∧
      (∀ t, r.meta = some t → t ∈ storeMatches r.sales stores) := by
  obtain ⟨p, hpm, hbucket⟩ := List.mem_flatMap.mp hr
  cases hm : storeMatches p.1 stores with
  | nil =>
    rw [hm] at hbucket
    have hre : r = ⟨p.1, p.2, none⟩ := List.mem_singleton.mp hbucket
    subst hre
    refine ⟨by simpa using hpm, ?_, ?_⟩
    · simp [hm]
    · intro t ht
      cases ht
  | cons t ts =>
    rw [hm] at hbucket
    obtain ⟨t2, ht2, hre⟩ := List.mem_map.mp hbucket
    subst hre
    refine ⟨by simpa using hpm, ?_, ?_⟩
    · simp [hm]
    · intro t3 ht3
      rw [hm]
      cases ht3
      exact ht2

theorem load_data_shape {train : List SalesRecord} {stores : List StoreMeta}
    {features : List FeatureRecord} {r : Row}
    (hr : r ∈ load_data train stores features) :
    r.sales ∈ train ∧
      (r.feat = none ↔ featMatches r.sales features = []) ∧
      (∀ f, r.feat = some f → f ∈ featMatches r.sales features) ∧
      (r.meta = none ↔ storeMatches r.sales stores = []) ∧
      (∀ t, r.meta = some t → t ∈ storeMatches r.sales stores) := by
  have hr2 : r ∈ mergeStores (mergeFeat train features) stores :=
    (List.mem_insertionSort _).mp hr
  obtain ⟨hpairs, hmeta1, hmeta2⟩ := mergeStores_shape hr2
  obtain ⟨hst, hfeat1, hfeat2⟩ := mergeFeat_shape hpairs
  exact ⟨hst, hfeat1, hfeat2, hmeta1, hmeta2⟩

theorem hwForecast_length (M : HWModel) (d : Int) (h : Nat) :
    (hwForecast M d h).length = h := by
  unfold hwForecast
  rw [List.length_map, List.length_range]

theorem hwForecast_date (M : HWModel) (d : Int) {h i : Nat} (hi : i < h) :
    ((hwForecast M d h)[i]?).map Prod.fst = some (d + 7 * ((i : Int) + 1)) := by
  unfold hwForecast
  rw [List.getElem?_map, List.getElem?_range hi]
  rfl

theorem generate_forecast_ok {data : List Row} {storeId deptId : Int}
    {futurePeriods m : Nat} {r : AppOk}
    (h : generate_forecast data storeId deptId futurePeriods m = .ok r) :
    r.ts = app_weekly (filterKey data storeId deptId) ∧
      r.forecast = hwForecast
        (hwFitOptimized m ((app_weekly (filterKey data storeId deptId)).map Prod.snd))
        (lastDateOf (app_weekly (filterKey data storeId deptId))) futurePeriods := by
  unfold generate_forecast at h
  dsimp only at h
  split at h
  · cases h
  · split at h
    · cases h
    · cases h
      exact ⟨rfl, rfl⟩

theorem run_forecast_ok {data : List Row} {storeId deptId : Int}
    {futurePeriods : Int} {r : SalesOk}
    (h : run_forecast data storeId deptId futurePeriods = .ok r) :
    r.ts = sales_weekly (filterKey data storeId deptId) ∧
      r.forecast = hwForecast
        (hwFit 52 (1/5) (1/5) (1/5) defaultDampingFactor
          ((sales_weekly (filterKey data storeId deptId)).map Prod.snd))
        (lastDateOf (sales_weekly (filterKey data storeId deptId))) futurePeriods.toNat := by
  unfold run_forecast at h
  dsimp only at h
  split at h
  · cases h
  · split at h
    · cases h
    · split at h
      · cases h
      · cases h
        exact ⟨rfl, rfl⟩

set_option maxRecDepth 100000

/-- C1: for every (storeId, deptId), provided each sales row has at most
one feature match and at most one store-metadata match (the join keys act
as keys, as in the source csv files), every value of the weekly series the
extractor builds (filter to the key, then weekly resample-sum) equals the
sum of all source Weekly_Sales values for that key whose date falls in
that calendar week, and consecutive series dates differ by exactly 7 days
(no gaps). -/
theorem C1_weekly_series_values_and_gaps
    (train : List SalesRecord) (stores : List StoreMeta) (features : List FeatureRecord)
    (storeId deptId : Int)
    (hf : ∀ s ∈ train, (featMatches s features).length ≤ 1)
    (hs : ∀ s ∈ train, (storeMatches s stores).length ≤ 1) :
    (∀ p ∈ app_weekly (filterKey (load_data train stores features) storeId deptId),
      p.2 = ((train.filter (fun s =>
          decide (s.store = storeId ∧ s.dept = deptId ∧ weekEnd s.date = p.1))).map
        SalesRecord.weeklySales).sum) ∧
    (∀ i : Nat,
      i + 1 < (app_weekly (filterKey (load_data train stores features) storeId deptId)).length →
      ((app_weekly (filterKey (load_data train stores features) storeId deptId))[i + 1]?).map
          Prod.fst
        = ((app_weekly (filterKey (load_data train stores features) storeId deptId))[i]?).map
            (fun p => p.1 + 7)) := by
  have hkey := appSeries_eq_trainSeries hf hs storeId deptId
  constructor
  · intro p hp
    rw [hkey] at hp
    rw [resampleW_mem_val hp, bucketSum_trainSeries]
  · intro i hi
    rw [hkey] at hi ⊢
    exact resampleW_gaps i hi

/-- C1 witness: on the three-point table `trainC` the second weekly bucket
date is the first bucket date plus 7 days. -/
theorem C1_witness :
    ((app_weekly (filterKey (load_data trainC [] []) 1 1))[0 + 1]?).map Prod.fst
      = ((app_weekly (filterKey (load_data trainC [] []) 1 1))[0]?).map (fun p => p.1 + 7) :=
  (C1_weekly_series_values_and_gaps trainC [] [] 1 1 (by decide) (by decide)).2 0 (by decide)

/-- C2 counterexample: in `run_forecast` (sales.py) a weekly series of
exactly 103 points for seasonal_periods = 52 is accepted for fitting even
though 103 < max(2·52, 52+5) = 104, so the claimed acceptance condition
does not hold at that entry point. -/
theorem C2_counterexample :
    (sales_weekly (filterKey (load_data trainA [] []) 1 1)).length = 103 ∧
      (103 : Nat) < max (2 * 52) (52 + 5) ∧
      okB (run_forecast (load_data trainA [] []) 1 1 30) = true :=
  ⟨by decide, by decide, by decide⟩

/-- C2 (amended): `generate_forecast` (app.py) rejects with its
insufficient-data error exactly when the series is shorter than
max(2·seasonalPeriods, seasonalPeriods+5), the error carrying the actual
length and the printed requirement 2·seasonalPeriods; `run_forecast`
(sales.py) instead rejects exactly when the series is shorter than the
fixed threshold 20. -/
theorem C2_amended_thresholds
    (data : List Row) (storeId deptId : Int) (h m : Nat) (w : Int)
    (hne : filterKey data storeId deptId ≠ []) (hw : 0 < w) :
    (generate_forecast data storeId deptId h m
        = .error (.insufficientData (app_weekly (filterKey data storeId deptId)).length (2 * m))
      ↔ (app_weekly (filterKey data storeId deptId)).length < max (2 * m) (m + 5)) ∧
    (run_forecast data storeId deptId w = .error .notEnoughData
      ↔ (sales_weekly (filterKey data storeId deptId)).length < 20) := by
  constructor
  · unfold generate_forecast
    dsimp only
    rw [if_neg (by simp [List.isEmpty_iff, hne])]
    by_cases hlen : (app_weekly (filterKey data storeId deptId)).length < max (2 * m) (m + 5)
    · rw [if_pos hlen]
      simp [hlen]
    · rw [if_neg hlen]
      simp [hlen]
  · unfold run_forecast
    rw [if_neg (by omega)]
    dsimp only
    rw [if_neg (by simp [List.isEmpty_iff, hne])]
    by_cases hlen : (sales_weekly (filterKey data storeId deptId)).length < 20
    · rw [if_pos hlen]
      simp [hlen]
    · rw [if_neg hlen]
      simp [hlen]

/-- C2 witness: the amended characterization instantiated on the 103-point
table `trainA` with seasonal_periods 52 and horizon 30. -/
theorem C2_amended_witness :
    (generate_forecast (load_data trainA [] []) 1 1 2 52
        = .error (.insufficientData
            (app_weekly (filterKey (load_data trainA [] []) 1 1)).length (2 * 52))
      ↔ (app_weekly (filterKey (load_data trainA [] []) 1 1)).length < max (2 * 52) (52 + 5)) ∧
    (run_forecast (load_data trainA [] []) 1 1 30 = .error .notEnoughData
      ↔ (sales_weekly (filterKey (load_data trainA [] []) 1 1)).length < 20) :=
  C2_amended_thresholds (load_data trainA [] []) 1 1 2 52 30 (by decide) (by decide)

/-- C3: whenever either entry point returns a successful result, the
forecast has exactly the requested number of points and the k-th forecast
date is the last historical date plus 7·k days (so the first is last+7 and
consecutive dates differ by 7). -/
theorem C3_forecast_shape
    (dataA dataS : List Row) (sA dA sS dS : Int) (h m : Nat) (w : Int)
    (rA : AppOk) (rS : SalesOk)
    (hA : generate_forecast dataA sA dA h m = .ok rA)
    (hS : run_forecast dataS sS dS w = .ok rS) :
    rA.forecast.length = h ∧
    (∀ i : Nat, i < h →
      (rA.forecast[i]?).map Prod.fst = some (lastDateOf rA.ts + 7 * ((i : Int) + 1))) ∧
    rS.forecast.length = w.toNat ∧
    (∀ i : Nat, i < w.toNat →
      (rS.forecast[i]?).map Prod.fst = some (lastDateOf rS.ts + 7 * ((i : Int) + 1))) := by
  obtain ⟨hts, hfc⟩ := generate_forecast_ok hA
  obtain ⟨hts2, hfc2⟩ := run_forecast_ok hS
  refine ⟨?_, ?_, ?_, ?_⟩
  · rw [hfc, hwForecast_length]
  · intro i hi
    rw [hfc, hts, hwForecast_date _ _ hi]
  · rw [hfc2, hwForecast_length]
  · intro i hi
    rw [hfc2, hts2, hwForecast_date _ _ hi]

/-- C3 witness: on the 20-point table `trainB`, a 2-week app forecast has
2 points and a 3-week sales forecast has 3 points. -/
theorem C3_witness :
    (okValue ⟨[], []⟩ (generate_forecast (load_data trainB [] []) 1 1 2 1)).forecast.length = 2 ∧
    (okValue ⟨[], []⟩ (run_forecast (load_data trainB [] []) 1 1 3)).forecast.length = 3 := by
  have hA : generate_forecast (load_data trainB [] []) 1 1 2 1
      = .ok (okValue ⟨[], []⟩ (generate_forecast (load_data trainB [] []) 1 1 2 1)) := by
    with_unfolding_all decide
  have hS : run_forecast (load_data trainB [] []) 1 1 3
      = .ok (okValue ⟨[], []⟩ (run_forecast (load_data trainB [] []) 1 1 3)) := by
    with_unfolding_all decide
  obtain ⟨h1, _, h3, _⟩ :=
    C3_forecast_shape (load_data trainB [] []) (load_data trainB [] []) 1 1 1 1 2 1 3 _ _ hA hS
  exact ⟨h1, h3⟩

/-- C4: for every key with at least one matching row, the weekly series
built by the extractor is nonempty and its first and last buckets are the
weeks of actual observations of that key (leading/trailing empty weeks are
never part of the series). -/
theorem C4_trim_to_occupied
    (data : List Row) (storeId deptId : Int)
    (hne : filterKey data storeId deptId ≠ []) :
    app_weekly (filterKey data storeId deptId) ≠ [] ∧
    (∃ r ∈ filterKey data storeId deptId,
      ((app_weekly (filterKey data storeId deptId)).head?.map Prod.fst)
        = some (weekEnd r.sales.date)) ∧
    (∃ r ∈ filterKey data storeId deptId,
      ((app_weekly (filterKey data storeId deptId)).getLast?.map Prod.fst)
        = some (weekEnd r.sales.date)) := by
  have hL : toSeries (List.insertionSort dateLe (filterKey data storeId deptId)) ≠ [] := by
    intro he
    apply hne
    have hlen := congrArg List.length he
    simp only [toSeries, List.length_map, List.length_nil] at hlen
    rw [List.length_insertionSort] at hlen
    exact List.eq_nil_of_length_eq_zero hlen
  refine ⟨?_, ?_, ?_⟩
  · show dropna (resampleW _) ≠ []
    unfold dropna
    rw [resampleW_eq hL]
    simp [nW]
  · obtain ⟨x, hx, hhx⟩ := minDateL_mem hL
    obtain ⟨r, hr, hre⟩ := List.mem_map.mp hx
    refine ⟨r, (List.mem_insertionSort _).mp hr, ?_⟩
    show (dropna (resampleW _)).head?.map Prod.fst = _
    unfold dropna
    rw [resampleW_head hL]
    simp only [Option.map_some']
    rw [loW, hhx, ← hre]
  · obtain ⟨x, hx, hhx⟩ := maxDateL_mem hL
    obtain ⟨r, hr, hre⟩ := List.mem_map.mp hx
    refine ⟨r, (List.mem_insertionSort _).mp hr, ?_⟩
    show (dropna (resampleW _)).getLast?.map Prod.fst = _
    unfold dropna
    rw [resampleW_getLast hL]
    simp only [Option.map_some']
    rw [hiW, hhx, ← hre]

/-- C4 witness: on `trainC` the first weekly bucket is the week of an
actual observation of the key. -/
theorem C4_witness :
    ∃ r ∈ filterKey (load_data trainC [] []) 1 1,
      ((app_weekly (filterKey (load_data trainC [] []) 1 1)).head?.map Prod.fst)
        = some (weekEnd r.sales.date) :=
  (C4_trim_to_occupied (load_data trainC [] []) 1 1 (by decide)).2.1

/-- C5: a request whose (storeId, deptId) matches no row fails with the
no-data error naming the store and department in `generate_forecast`, and
with the no-data message in `run_forecast` (for any positive horizon);
neither returns a successful result. -/
theorem C5_no_data_for_key
    (dataA dataS : List Row) (sA dA sS dS : Int) (h m : Nat) (w : Int)
    (hA : filterKey dataA sA dA = []) (hS : filterKey dataS sS dS = []) (hw : 0 < w) :
    generate_forecast dataA sA dA h m = .error (.noData sA dA) ∧
      run_forecast dataS sS dS w = .error .noData := by
  constructor
  · unfold generate_forecast
    dsimp only
    rw [if_pos (by simp [List.isEmpty_iff, hA])]
  · unfold run_forecast
    rw [if_neg (by omega)]
    dsimp only
    rw [if_pos (by simp [List.isEmpty_iff, hS])]

/-- C5 witness: on an empty dataset, both entry points report the missing
key (Store 3, Dept 9). -/
theorem C5_witness :
    generate_forecast [] 3 9 5 52 = .error (.noData 3 9) ∧
      run_forecast [] 3 9 4 = .error .noData :=
  C5_no_data_for_key [] [] 3 9 3 9 5 52 4 (by decide) (by decide) (by decide)

/-- C6 counterexample: `generate_forecast` (app.py) performs no horizon
validation: with horizon 0 on valid data it returns a successful result
with an empty forecast instead of failing with an invalid-parameter
error. -/
theorem C6_counterexample :
    okB (generate_forecast (load_data trainB [] []) 1 1 0 1) = true ∧
      (okValue ⟨[], []⟩ (generate_forecast (load_data trainB [] []) 1 1 0 1)).forecast = [] :=
  ⟨by decide, by decide⟩

/-- C6 (amended): only `run_forecast` (sales.py) validates the horizon: a
non-positive weeks entry fails with the input error before any filtering,
fitting or forecasting; `generate_forecast` (app.py) has no horizon check
of its own (the slider widget is the only guard). -/
theorem C6_amended_validation
    (data : List Row) (storeId deptId : Int) (w : Int) (hw : w ≤ 0) :
    run_forecast data storeId deptId w = .error .inputErrorWeeks := by
  unfold run_forecast
  rw [if_pos hw]

/-- C6 witness: a zero-week request is rejected by `run_forecast`. -/
theorem C6_amended_witness :
    run_forecast [] 1 1 0 = .error .inputErrorWeeks :=
  C6_amended_validation [] 1 1 0 (by decide)

/-- C7 counterexample: with seasonal_periods = 1 a 3-point series is
rejected (3 < max(2, 6) = 6) but the error reports required = 2, which is
not the threshold 6 actually used. -/
theorem C7_counterexample :
    generate_forecast (load_data trainC [] []) 1 1 5 1 = .error (.insufficientData 3 2) ∧
      max (2 * 1) (1 + 5) = 6 :=
  ⟨by decide, by decide⟩

/-- C7 (amended): the insufficient-data error carries the actual length
together with 2·seasonalPeriods as the reported requirement; this reported
figure equals the enforced threshold max(2·m, m+5) exactly when m ≥ 5 (in
particular for the m = 52 scenarios of the spec). -/
theorem C7_amended_required_field
    (data : List Row) (storeId deptId : Int) (h m : Nat)
    (hne : filterKey data storeId deptId ≠ [])
    (hlen : (app_weekly (filterKey data storeId deptId)).length < max (2 * m) (m + 5)) :
    generate_forecast data storeId deptId h m
        = .error (.insufficientData (app_weekly (filterKey data storeId deptId)).length (2 * m)) ∧
      (5 ≤ m → 2 * m = max (2 * m) (m + 5)) := by
  constructor
  · unfold generate_forecast
    dsimp only
    rw [if_neg (by simp [List.isEmpty_iff, hne]), if_pos hlen]
  · intro h5
    omega

/-- C7 witness: on the 103-point table with seasonal_periods 52 the error
carries actual = 103 and required = 2·52 = 104 = max(104, 57). -/
theorem C7_amended_witness :
    generate_forecast (load_data trainA [] []) 1 1 2 52
        = .error (.insufficientData
            (app_weekly (filterKey (load_data trainA [] []) 1 1)).length (2 * 52)) ∧
      (5 ≤ 52 → 2 * 52 = max (2 * 52) (52 + 5)) :=
  C7_amended_required_field (load_data trainA [] []) 1 1 2 52 (by decide) (by decide)

/-- C9: the fixed-mode fit is a pure function of its inputs — two runs on
equal series with equal smoothing parameters yield identical final level,
trend and seasonal state, and identical forecasts. -/
theorem C9_fixed_fit_deterministic
    (m : Nat) (a b g phi : Rat) (ys1 ys2 : List Rat) (d1 d2 : Int) (h1 h2 : Nat)
    (hys : ys1 = ys2) (hd : d1 = d2) (hh : h1 = h2) :
    hwFit m a b g phi ys1 = hwFit m a b g phi ys2 ∧
      hwForecast (hwFit m a b g phi ys1) d1 h1 = hwForecast (hwFit m a b g phi ys2) d2 h2 := by
  subst hys
  subst hd
  subst hh
  exact ⟨rfl, rfl⟩

/-- C9 witness: two identical fixed-mode runs (α = β = γ = 0.2, the
library damping factor, m = 52) agree on the model and a 10-step
forecast. -/
theorem C9_witness :
    hwFit 52 (1/5) (1/5) (1/5) defaultDampingFactor [1, 2, 3]
        = hwFit 52 (1/5) (1/5) (1/5) defaultDampingFactor [1, 2, 3] ∧
      hwForecast (hwFit 52 (1/5) (1/5) (1/5) defaultDampingFactor [1, 2, 3]) 0 10
        = hwForecast (hwFit 52 (1/5) (1/5) (1/5) defaultDampingFactor [1, 2, 3]) 0 10 :=
  C9_fixed_fit_deterministic 52 (1/5) (1/5) (1/5) defaultDampingFactor
    [1, 2, 3] [1, 2, 3] 0 0 10 10 rfl rfl rfl

/-- C10: on the same unified dataset and key, the weekly series built by
sales.py (groupby-sum, sort by index, weekly resample-sum) and the one
built by app.py (sort by date, index by date, weekly resample-sum, drop
NaNs) are identical. -/
theorem C10_series_constructions_agree (data : List Row) (storeId deptId : Int) :
    sales_weekly (filterKey data storeId deptId)
      = app_weekly (filterKey data storeId deptId) :=
  sales_weekly_eq_app_weekly (filterKey data storeId deptId)

/-- C8: the assembler's join is left-preserving and never fabricates
fields: the output is a permutation of the raw two-stage left join, every
sales row appears in it, each output row's feature/metadata fields are
absent exactly when no right-hand row matches its join keys and otherwise
come from a matching right-hand row, and the result is sorted by
(Store, Dept, Date). -/
theorem C8_left_join_shape
    (train : List SalesRecord) (stores : List StoreMeta) (features : List FeatureRecord) :
    (load_data train stores features).Perm
        (mergeStores (mergeFeat train features) stores) ∧
    (∀ s ∈ train, ∃ r ∈ load_data train stores features, r.sales = s) ∧
    (∀ r ∈ load_data train stores features,
      r.sales ∈ train ∧
        (r.feat = none ↔ featMatches r.sales features = []) ∧
        (∀ f, r.feat = some f → f ∈ featMatches r.sales features) ∧
        (r.meta = none ↔ storeMatches r.sales stores = []) ∧
        (∀ t, r.meta = some t → t ∈ storeMatches r.sales stores)) ∧
    List.Sorted rowLe (load_data train stores features) := by
  refine ⟨List.perm_insertionSort _ _, ?_, ?_, load_data_sorted train stores features⟩
  · intro s hs
    exact mem_load_data_of_mem hs
  · intro r hr
    exact load_data_shape hr

/-- C8 witness: on the concrete tables the out-of-order sales row for
Store 1 survives the join, and the join output is sorted. -/
theorem C8_witness :
    (∃ r ∈ load_data trainE storesE featsE, r.sales = ⟨1, 1, 0, 0, false⟩) ∧
      List.Sorted rowLe (load_data trainE storesE featsE) :=
  ⟨(C8_left_join_shape trainE storesE featsE).2.1 ⟨1, 1, 0, 0, false⟩ (by decide),
    (C8_left_join_shape trainE storesE featsE).2.2.2⟩

end SalesForecast
